import Mathlib

/-!
Verification of the AppTrack record store and synchronization engine.

The definitions below are a shallow embedding of the store and sync code in
src/gui/main_window.py. A pandas DataFrame with its integer index is modelled
as a list of (label, row) pairs; a missing cell (NaN) is modelled as none.
The Tk event loop, the Excel file and the Google Sheets service are modelled
by explicit inputs: a fetch either yields a remote frame or raises, and timer
callbacks armed with after are kept in an explicit pending list.
-/

namespace AppTrack

/-- A cell of the applications table; none models a pandas missing value. -/
abbrev Cell := Option String

/-- One application record, with the five columns of the applications table. -/
structure Row where
  company : Cell
  position : Cell
  portalURL : Cell
  dateApplied : Cell
  status : Cell
deriving DecidableEq, Repr

/-- A DataFrame together with its integer index: a list of (label, row). -/
abbrev Df := List (Nat × Row)

/-- The empty string, named so it can be passed as a plain argument. -/
def emptyStr : String := ""

/-- The default status given to a new application in save_application. -/
def statusSubmitted : String := "Submitted"

/-- The error text shown when Company or Position is missing. -/
def requiredFieldsMsg : String := "Company and Position are required fields."

/-- Log line of the except branch of sync_from_google_sheets. -/
def syncFromErrMsg (e : String) : String :=
  "Error syncing data from Google Sheets: " ++ e

/-- Log line of the except branch of sync_to_google_sheets. -/
def syncToErrMsg (e : String) : String :=
  "Error syncing data to Google Sheets: " ++ e

/-- Log line of the except branch of load_application_data. -/
def loadErrMsg (e : String) : String :=
  "Error: Could not read the Excel file from AppData. " ++ e

/-- df.fillna applied to one row: every missing cell becomes the empty string. -/
def fillnaRow (r : Row) : Row :=
  { company := some (r.company.getD emptyStr)
    position := some (r.position.getD emptyStr)
    portalURL := some (r.portalURL.getD emptyStr)
    dateApplied := some (r.dateApplied.getD emptyStr)
    status := some (r.status.getD emptyStr) }

/-- google_df.fillna with the empty string, as done at the start of a pull. -/
def fillna (df : Df) : Df := df.map (fun p => (p.1, fillnaRow p.2))

/-- The mutable application state relevant to the store and sync claims:
the sync_to_google flag, the applications_df frame, and the error log. -/
structure AppState where
  syncToGoogle : Bool
  applications_df : Df
  errorLog : List String
deriving DecidableEq, Repr

/-- Outcome of read_from_google_sheets: a frame, or a raised error
(network, authentication, malformed response). -/
inductive FetchResult where
  | ok (df : Df)
  | err (msg : String)
deriving DecidableEq, Repr

/-- Result of one call to sync_from_google_sheets: the new application state,
how many wholesale replacements of applications_df happened, and how many
change notifications (populate_treeview refreshes) were fired. -/
structure SyncOutcome where
  state : AppState
  replaces : Nat
  notifications : Nat
deriving DecidableEq, Repr

/-- sync_from_google_sheets: skip when sync is disabled; on a raised error log
and keep everything; otherwise fill missing cells, and when the fetched frame
is non-empty and differs from applications_df, adopt it wholesale and refresh
the treeview once. -/
def sync_from_google_sheets (s : AppState) (fetch : FetchResult) : SyncOutcome :=
  if s.syncToGoogle = false then ⟨s, 0, 0⟩
  else
    match fetch with
    | .err e => ⟨{ s with errorLog := s.errorLog ++ [syncFromErrMsg e] }, 0, 0⟩
    | .ok gdf =>
        let g := fillna gdf
        if g ≠ [] then
          if g ≠ s.applications_df then
            ⟨{ s with applications_df := g }, 1, 1⟩
          else ⟨s, 0, 0⟩
        else ⟨s, 0, 0⟩

/-- sync_to_google_sheets: skip when disabled; push the whole frame, and on a
raised error log it and keep the state otherwise unchanged. -/
def sync_to_google_sheets_op (s : AppState) (push : Except String Unit) : AppState :=
  if s.syncToGoogle = false then s
  else
    match push with
    | .ok _ => s
    | .error e => { s with errorLog := s.errorLog ++ [syncToErrMsg e] }

/-- Sample company name. -/
def strAcme : String := "Acme"

/-- Sample position name. -/
def strEngineer : String := "Engineer"

/-- Sample company name. -/
def strGlobex : String := "Globex"

/-- Sample position name. -/
def strPM : String := "PM"

/-- Sample date. -/
def strDate1 : String := "2024-01-01"

/-- Sample date. -/
def strDate2 : String := "2024-01-02"

/-- Sample status value. -/
def strInterview : String := "Interview"

/-- Sample error text used in witnesses. -/
def strNetDown : String := "network down"

/-- A sample record used for concrete witnesses and counterexamples. -/
def rowA : Row :=
  { company := some strAcme
    position := some strEngineer
    portalURL := some emptyStr
    dateApplied := some strDate1
    status := some statusSubmitted }

/-- A second sample record. -/
def rowB : Row :=
  { company := some strGlobex
    position := some strPM
    portalURL := some emptyStr
    dateApplied := some strDate2
    status := some strInterview }

/-- Concrete sync-enabled state with one local record, for counterexamples. -/
def s0 : AppState :=
  { syncToGoogle := true
    applications_df := [(0, rowA)]
    errorLog := [] }

theorem fillna_nil : fillna [] = [] := rfl

/-- Claim C10: a pull whose fetched remote snapshot is empty never replaces the
local store: the state is returned unchanged, with zero replacements and zero
change notifications, whatever the local contents are. -/
theorem pull_empty_never_replaces (s : AppState) :
    sync_from_google_sheets s (FetchResult.ok []) = ⟨s, 0, 0⟩ := by
  by_cases h : s.syncToGoogle = false <;>
    simp [sync_from_google_sheets, h, fillna]

/-- Claim C4: a pull whose fetched snapshot, after filling missing cells, is
structurally equal to the local frame performs no replacement, fires no change
notification, and leaves the state unchanged. -/
theorem pull_equal_no_replace (s : AppState) (gdf : Df)
    (hen : s.syncToGoogle = true)
    (heq : fillna gdf = s.applications_df) :
    sync_from_google_sheets s (FetchResult.ok gdf) = ⟨s, 0, 0⟩ := by
  by_cases hnil : fillna gdf = [] <;>
    simp [sync_from_google_sheets, hen, hnil, heq]

/-- Witness for pull_equal_no_replace: a concrete pull returning exactly the
local snapshot makes no change. -/
theorem pull_equal_no_replace_witness :
    sync_from_google_sheets s0 (FetchResult.ok [(0, rowA)]) = ⟨s0, 0, 0⟩ :=
  pull_equal_no_replace s0 [(0, rowA)] (by decide) (by decide)

/-- Counterexample to claim C1 as stated: with a non-empty local store and an
empty fetched remote snapshot (which differs from it), the pull performs zero
replacements and zero notifications and the local store is left different from
the remote snapshot, not replaced by it. -/
theorem pull_empty_remote_cex :
    sync_from_google_sheets s0 (FetchResult.ok []) = ⟨s0, 0, 0⟩ ∧
    s0.applications_df ≠ ([] : Df) := by
  constructor
  · rfl
  · decide

/-- Claim C1 (amended): for every fetch whose normalized snapshot is non-empty
and differs from the local frame, the pull performs exactly one wholesale
replacement and exactly one change notification, after which the local store
is structurally equal to the fetched (normalized) snapshot. -/
theorem pull_differing_nonempty_replaces (s : AppState) (gdf : Df)
    (hen : s.syncToGoogle = true)
    (hne : fillna gdf ≠ [])
    (hdiff : fillna gdf ≠ s.applications_df) :
    sync_from_google_sheets s (FetchResult.ok gdf) =
      ⟨{ s with applications_df := fillna gdf }, 1, 1⟩ := by
  simp [sync_from_google_sheets, hen, hne, hdiff]

/-- Witness for pull_differing_nonempty_replaces at a concrete differing
non-empty remote snapshot. -/
theorem pull_differing_nonempty_replaces_witness :
    sync_from_google_sheets s0 (FetchResult.ok [(0, rowB)]) =
      ⟨{ s0 with applications_df := fillna [(0, rowB)] }, 1, 1⟩ :=
  pull_differing_nonempty_replaces s0 [(0, rowB)] (by decide) (by decide) (by decide)

/-- load_application_data: the reader result is either a frame or a raised
error (absent file, unreadable or corrupt file); every raised error is caught,
logged and replaced by the empty frame. Returns the new applications_df
together with the log lines produced. -/
def load_application_data (r : Except String Df) : Df × List String :=
  match r with
  | .ok df => (df, [])
  | .error e => ([], [loadErrMsg e])

/-- Claim C8: Load never propagates an error: a reader error (absent,
unreadable or corrupt file) yields the empty snapshot plus a log line, and a
successful read yields the read snapshot with nothing logged. -/
theorem load_never_propagates :
    (∀ e : String, load_application_data (Except.error e) = ([], [loadErrMsg e])) ∧
    (∀ df : Df, load_application_data (Except.ok df) = (df, [])) :=
  ⟨fun _ => rfl, fun _ => rfl⟩

/-- State of the sync scheduler built on the Tk event loop: the application
state, the armed after-callbacks for schedule_sync in arming order, a fresh
task id counter, the sync_task handle remembered by the window, and a count of
the pulls started so far. -/
structure SchedState where
  app : AppState
  pendingTasks : List Nat
  nextTaskId : Nat
  syncTask : Option Nat
  pullStarts : Nat
deriving DecidableEq, Repr

/-- Body of schedule_sync: first re-arm the 60 second timer and remember the
task handle, then, only if sync is enabled, start a pull by calling
sync_from_google_sheets. -/
def schedule_sync_body (s : SchedState) (fetch : FetchResult) : SchedState :=
  let s1 : SchedState :=
    { s with pendingTasks := s.pendingTasks ++ [s.nextTaskId]
             syncTask := some s.nextTaskId
             nextTaskId := s.nextTaskId + 1 }
  if s1.app.syncToGoogle then
    { s1 with app := (sync_from_google_sheets s1.app fetch).state
              pullStarts := s1.pullStarts + 1 }
  else s1

/-- One 60 unit interval of the simulated clock elapses: if any armed timer
callback is pending the earliest one fires and runs schedule_sync, consuming
the given fetch outcome if a pull is started; otherwise nothing happens. -/
def tick (s : SchedState) (fetch : FetchResult) : SchedState :=
  match s.pendingTasks with
  | [] => s
  | _ :: rest => schedule_sync_body { s with pendingTasks := rest } fetch

/-- Advance the simulated clock through one interval per listed fetch
outcome. -/
def ticks (s : SchedState) (fs : List FetchResult) : SchedState :=
  fs.foldl tick s

/-- toggle_sync: set the flag from the checkbox; when disabling, cancel the
remembered sync task if one is armed; when enabling, call schedule_sync (which
also performs one immediate pull) and then push once. -/
def toggle_sync (s : SchedState) (checkbox : Bool)
    (fetch : FetchResult) (push : Except String Unit) : SchedState :=
  let s1 : SchedState := { s with app := { s.app with syncToGoogle := checkbox } }
  let s2 : SchedState :=
    if checkbox = false then
      match s1.syncTask with
      | some t => { s1 with pendingTasks := s1.pendingTasks.erase t, syncTask := none }
      | none => s1
    else s1
  if checkbox then
    let s3 := schedule_sync_body s2 fetch
    { s3 with app := sync_to_google_sheets_op s3.app push }
  else s2

theorem tick_flag_false (s : SchedState) (f : FetchResult)
    (h : s.app.syncToGoogle = false) :
    (tick s f).app.syncToGoogle = false ∧ (tick s f).pullStarts = s.pullStarts := by
  cases hp : s.pendingTasks with
  | nil => simp [tick, hp, h]
  | cons t rest => simp [tick, hp, schedule_sync_body, h]

theorem ticks_flag_false (fs : List FetchResult) (s : SchedState)
    (h : s.app.syncToGoogle = false) :
    (ticks s fs).pullStarts = s.pullStarts := by
  induction fs generalizing s with
  | nil => rfl
  | cons f fs ih =>
      have h1 := tick_flag_false s f h
      calc (ticks s (f :: fs)).pullStarts
          = (ticks (tick s f) fs).pullStarts := rfl
        _ = (tick s f).pullStarts := ih (tick s f) h1.1
        _ = s.pullStarts := h1.2

/-- Claim C5: once toggle_sync has disabled sync, advancing the simulated
clock through any number of further intervals starts zero further pulls,
whatever timers were armed and whatever the remote service would have
returned. -/
theorem disable_sync_no_further_pulls (s : SchedState)
    (f : FetchResult) (push : Except String Unit) (fs : List FetchResult) :
    (ticks (toggle_sync s false f push) fs).pullStarts = s.pullStarts := by
  have hflag : (toggle_sync s false f push).app.syncToGoogle = false := by
    cases ht : s.syncTask <;> simp [toggle_sync, ht]
  have hpulls : (toggle_sync s false f push).pullStarts = s.pullStarts := by
    cases ht : s.syncTask <;> simp [toggle_sync, ht]
  rw [ticks_flag_false fs _ hflag, hpulls]

/-- Claim C6: a raised error during a pull is caught and logged, the sync flag
stays enabled, the local frame is unchanged, the next tick is already armed
and a later tick starts a pull again; and a raised error during a push is
likewise caught and logged with the state otherwise unchanged. -/
theorem sync_error_recoverable (s : SchedState) (e : String) (f2 : FetchResult)
    (hen : s.app.syncToGoogle = true) (hp : s.pendingTasks ≠ []) :
    (tick s (FetchResult.err e)).app.syncToGoogle = true ∧
    (tick s (FetchResult.err e)).app.applications_df = s.app.applications_df ∧
    (tick s (FetchResult.err e)).app.errorLog = s.app.errorLog ++ [syncFromErrMsg e] ∧
    (tick s (FetchResult.err e)).syncTask = some s.nextTaskId ∧
    (tick s (FetchResult.err e)).pendingTasks ≠ [] ∧
    (tick s (FetchResult.err e)).pullStarts = s.pullStarts + 1 ∧
    (tick (tick s (FetchResult.err e)) f2).pullStarts = s.pullStarts + 2 ∧
    (∀ (a : AppState) (e2 : String), a.syncToGoogle = true →
      sync_to_google_sheets_op a (Except.error e2) =
        { a with errorLog := a.errorLog ++ [syncToErrMsg e2] }) := by
  cases hpt : s.pendingTasks with
  | nil => exact absurd hpt hp
  | cons t rest =>
      have hbody : tick s (FetchResult.err e) =
          schedule_sync_body { s with pendingTasks := rest } (FetchResult.err e) := by
        simp [tick, hpt]
      rw [hbody]
      refine ⟨?_, ?_, ?_, ?_, ?_, ?_, ?_, ?_⟩
      · simp [schedule_sync_body, hen, sync_from_google_sheets]
      · simp [schedule_sync_body, hen, sync_from_google_sheets]
      · simp [schedule_sync_body, hen, sync_from_google_sheets]
      · simp [schedule_sync_body, hen]
      · simp [schedule_sync_body, hen]
      · simp [schedule_sync_body, hen]
      · cases rest with
        | nil => simp [schedule_sync_body, hen, tick, sync_from_google_sheets]
        | cons t2 rest2 => simp [schedule_sync_body, hen, tick, sync_from_google_sheets]
      · intro a e2 hae
        simp [sync_to_google_sheets_op, hae]

/-- A concrete scheduler state with sync enabled and one armed timer. -/
def sched0 : SchedState :=
  { app := s0
    pendingTasks := [0]
    nextTaskId := 1
    syncTask := some 0
    pullStarts := 0 }

/-- Witness for sync_error_recoverable at a concrete enabled scheduler state
and a concrete network error. -/
theorem sync_error_recoverable_witness :
    (tick sched0 (FetchResult.err strNetDown)).app.syncToGoogle = true ∧
    (tick sched0 (FetchResult.err strNetDown)).app.applications_df =
      sched0.app.applications_df ∧
    (tick sched0 (FetchResult.err strNetDown)).app.errorLog =
      sched0.app.errorLog ++ [syncFromErrMsg strNetDown] ∧
    (tick sched0 (FetchResult.err strNetDown)).syncTask = some sched0.nextTaskId ∧
    (tick sched0 (FetchResult.err strNetDown)).pendingTasks ≠ [] ∧
    (tick sched0 (FetchResult.err strNetDown)).pullStarts = sched0.pullStarts + 1 ∧
    (tick (tick sched0 (FetchResult.err strNetDown)) (FetchResult.ok [])).pullStarts =
      sched0.pullStarts + 2 ∧
    (∀ (a : AppState) (e2 : String), a.syncToGoogle = true →
      sync_to_google_sheets_op a (Except.error e2) =
        { a with errorLog := a.errorLog ++ [syncToErrMsg e2] }) :=
  sync_error_recoverable sched0 strNetDown (FetchResult.ok []) (by decide) (by decide)

/-- Whitespace characters removed by the Python str.strip call: exactly the
code points on which str.isspace is true, namely 09-0D, 1C-1F, 20, 85, A0,
1680, 2000-200A, 2028, 2029, 202F, 205F and 3000. -/
def pyWhitespace (c : Char) : Bool :=
  decide (0x09 ≤ c.toNat ∧ c.toNat ≤ 0x0d) ||
  decide (0x1c ≤ c.toNat ∧ c.toNat ≤ 0x1f) ||
  decide (c.toNat = 0x20) ||
  decide (c.toNat = 0x85) ||
  decide (c.toNat = 0xa0) ||
  decide (c.toNat = 0x1680) ||
  decide (0x2000 ≤ c.toNat ∧ c.toNat ≤ 0x200a) ||
  decide (c.toNat = 0x2028) ||
  decide (c.toNat = 0x2029) ||
  decide (c.toNat = 0x202f) ||
  decide (c.toNat = 0x205f) ||
  decide (c.toNat = 0x3000)

/-- str.strip on a character list: drop whitespace from the front, then from
the back. -/
def pyStripList (l : List Char) : List Char :=
  ((l.dropWhile pyWhitespace).reverse.dropWhile pyWhitespace).reverse

/-- Python str.strip with no arguments. -/
def pyStrip (s : String) : String := ⟨pyStripList s.data⟩

theorem dropWhile_self_dropWhile (p : Char → Bool) :
    ∀ l : List Char, (l.dropWhile p).dropWhile p = l.dropWhile p := by
  intro l
  induction l with
  | nil => rfl
  | cons a l ih =>
      by_cases h : p a = true <;> simp [List.dropWhile_cons, h, ih]

theorem head_dropWhile_false (p : Char → Bool) :
    ∀ (l : List Char) (c : Char) (cs : List Char),
      l.dropWhile p = c :: cs → p c = false := by
  intro l
  induction l with
  | nil => intro c cs h; exact absurd h (by simp)
  | cons a l ih =>
      intro c cs h
      by_cases ha : p a = true
      · exact ih c cs (by simpa [List.dropWhile_cons, ha] using h)
      · have : a :: l = c :: cs := by simpa [List.dropWhile_cons, ha] using h
        cases this
        simpa using ha

theorem pyStripList_prefix (l : List Char) :
    pyStripList l <+: l.dropWhile pyWhitespace := by
  rw [← List.reverse_suffix]
  unfold pyStripList
  rw [List.reverse_reverse]
  exact List.dropWhile_suffix pyWhitespace

theorem lstrip_pyStripList (l : List Char) :
    (pyStripList l).dropWhile pyWhitespace = pyStripList l := by
  cases h : pyStripList l with
  | nil => simp
  | cons c cs =>
      obtain ⟨t, ht⟩ := pyStripList_prefix l
      rw [h] at ht
      have hc : pyWhitespace c = false :=
        head_dropWhile_false pyWhitespace l c (cs ++ t) (by rw [← ht]; simp)
      simp [List.dropWhile_cons, hc]

theorem pyStripList_idem (l : List Char) :
    pyStripList (pyStripList l) = pyStripList l := by
  show (((pyStripList l).dropWhile pyWhitespace).reverse.dropWhile pyWhitespace).reverse
      = pyStripList l
  rw [lstrip_pyStripList]
  unfold pyStripList
  rw [List.reverse_reverse, dropWhile_self_dropWhile]

theorem pyStrip_idem (s : String) : pyStrip (pyStrip s) = pyStrip s :=
  congrArg String.mk (pyStripList_idem s.data)

theorem pyStrip_all_ws (s : String) (h : ∀ c ∈ s.data, pyWhitespace c = true) :
    pyStrip s = emptyStr := by
  have h1 : s.data.dropWhile pyWhitespace = [] := List.dropWhile_eq_nil_iff.mpr h
  show String.mk (pyStripList s.data) = emptyStr
  unfold pyStripList
  rw [h1]
  rfl

/-- A fully populated row as built by save_application. -/
def mkRow (c p u d st : String) : Row :=
  { company := some c
    position := some p
    portalURL := some u
    dateApplied := some d
    status := some st }

/-- pd.concat of a frame with new rows under ignore_index: all rows are
relabelled 0, 1, 2, ... in order. -/
def concat_ignore_index (df : Df) (new : List Row) : Df :=
  ((df.map Prod.snd) ++ new).enum

/-- save_application: strip the three text inputs, reject when the stripped
Company or Position is empty (store unchanged, error message returned),
otherwise append the new record with the default Submitted status under
ignore_index relabelling. -/
def save_application (companyIn positionIn urlIn dateApplied : String)
    (df : Df) : Df × Option String :=
  let position := pyStrip positionIn
  let company := pyStrip companyIn
  let url := pyStrip urlIn
  let status := statusSubmitted
  if company = emptyStr ∨ position = emptyStr then
    (df, some requiredFieldsMsg)
  else
    (concat_ignore_index df [mkRow company position url dateApplied status], none)

theorem enumFrom_append_singleton (a : Row) :
    ∀ (l : List Row) (n : Nat),
      List.enumFrom n (l ++ [a]) = List.enumFrom n l ++ [(n + l.length, a)] := by
  intro l
  induction l with
  | nil => intro n; simp
  | cons x xs ih =>
      intro n
      show (n, x) :: List.enumFrom (n + 1) (xs ++ [a])
          = (n, x) :: List.enumFrom (n + 1) xs ++ [(n + (xs.length + 1), a)]
      rw [ih (n + 1)]
      simp [Nat.add_assoc, Nat.add_comm 1 xs.length]

theorem enum_append_singleton (l : List Row) (a : Row) :
    (l ++ [a]).enum = l.enum ++ [(l.length, a)] := by
  show List.enumFrom 0 (l ++ [a]) = List.enumFrom 0 l ++ [(l.length, a)]
  rw [enumFrom_append_singleton a l 0, Nat.zero_add]

/-- Claim C3: save_application succeeds exactly when the stored Company and
Position (the stripped inputs) are non-empty; on failure the store is
unchanged and the validation message is reported; on success the new record is
appended at the end under id equal to the previous store length, with status
Submitted. -/
theorem add_validates_and_appends (c p u d : String) (recs : List Row) :
    ((save_application c p u d recs.enum).2 = none ↔
      (pyStrip c ≠ emptyStr ∧ pyStrip p ≠ emptyStr)) ∧
    (pyStrip c = emptyStr ∨ pyStrip p = emptyStr →
      save_application c p u d recs.enum = (recs.enum, some requiredFieldsMsg)) ∧
    (pyStrip c ≠ emptyStr → pyStrip p ≠ emptyStr →
      save_application c p u d recs.enum =
        (recs.enum ++ [(recs.length,
          mkRow (pyStrip c) (pyStrip p) (pyStrip u) d statusSubmitted)], none)) := by
  by_cases h : pyStrip c = emptyStr ∨ pyStrip p = emptyStr
  · refine ⟨?_, fun _ => ?_, fun hc hp => ?_⟩
    · simp only [save_application, if_pos h]
      constructor
      · intro hnone; exact absurd hnone (by simp)
      · intro hne; rcases h with h | h
        · exact absurd h hne.1
        · exact absurd h hne.2
    · simp only [save_application, if_pos h]
    · rcases h with h | h
      · exact absurd h hc
      · exact absurd h hp
  · have happ : save_application c p u d recs.enum =
        (concat_ignore_index recs.enum
          [mkRow (pyStrip c) (pyStrip p) (pyStrip u) d statusSubmitted], none) := by
      simp only [save_application, if_neg h]
    have hconcat : concat_ignore_index recs.enum
        [mkRow (pyStrip c) (pyStrip p) (pyStrip u) d statusSubmitted] =
        recs.enum ++ [(recs.length,
          mkRow (pyStrip c) (pyStrip p) (pyStrip u) d statusSubmitted)] := by
      unfold concat_ignore_index
      rw [List.enum_map_snd]
      exact enum_append_singleton recs _
    push_neg at h
    refine ⟨?_, fun hcon => ?_, fun _ _ => ?_⟩
    · rw [happ]; simpa using h
    · rcases hcon with hcon | hcon
      · exact absurd hcon h.1
      · exact absurd hcon h.2
    · rw [happ, hconcat]

/-- Witness for add_validates_and_appends at a concrete valid input appended
to a one-record store. -/
theorem add_validates_and_appends_witness :
    ((save_application strGlobex strPM emptyStr strDate2 [rowA].enum).2 = none ↔
      (pyStrip strGlobex ≠ emptyStr ∧ pyStrip strPM ≠ emptyStr)) ∧
    (pyStrip strGlobex = emptyStr ∨ pyStrip strPM = emptyStr →
      save_application strGlobex strPM emptyStr strDate2 [rowA].enum =
        ([rowA].enum, some requiredFieldsMsg)) ∧
    (pyStrip strGlobex ≠ emptyStr → pyStrip strPM ≠ emptyStr →
      save_application strGlobex strPM emptyStr strDate2 [rowA].enum =
        ([rowA].enum ++ [([rowA].length,
          mkRow (pyStrip strGlobex) (pyStrip strPM) (pyStrip emptyStr) strDate2
            statusSubmitted)], none)) :=
  add_validates_and_appends strGlobex strPM emptyStr strDate2 [rowA]

/-- A concrete whitespace-only input string: space, no-break space, space. -/
def strWS : String := " \xa0 "

/-- Claim C9: a whitespace-only Company is rejected exactly as an empty one
(and likewise for Position, stated for all inputs), and every stored text
field of a successfully added record is the stripped input, which carries no
leading or trailing whitespace (stripping it again changes nothing). -/
theorem add_strips_whitespace (c p u d : String) (recs : List Row)
    (hc : ∀ ch ∈ c.data, pyWhitespace ch = true) :
    save_application c p u d recs.enum = (recs.enum, some requiredFieldsMsg) ∧
    save_application c p u d recs.enum = save_application emptyStr p u d recs.enum ∧
    (∀ (c3 p3 u3 d3 : String) (df : Df), (∀ ch ∈ p3.data, pyWhitespace ch = true) →
      save_application c3 p3 u3 d3 df = (df, some requiredFieldsMsg) ∧
      save_application c3 p3 u3 d3 df = save_application c3 emptyStr u3 d3 df) ∧
    (∀ (c2 p2 u2 d2 : String) (df : Df), (save_application c2 p2 u2 d2 df).2 = none →
      (save_application c2 p2 u2 d2 df).1 =
        (df.map Prod.snd ++
          [mkRow (pyStrip c2) (pyStrip p2) (pyStrip u2) d2 statusSubmitted]).enum ∧
      pyStrip (pyStrip c2) = pyStrip c2 ∧ pyStrip (pyStrip p2) = pyStrip p2 ∧
      pyStrip (pyStrip u2) = pyStrip u2) := by
  have hce : pyStrip c = emptyStr := pyStrip_all_ws c hc
  have hee : pyStrip emptyStr = emptyStr := by decide
  refine ⟨?_, ?_, ?_, ?_⟩
  · simp only [save_application, if_pos (Or.inl hce)]
  · simp only [save_application, if_pos (Or.inl hce), if_pos (Or.inl hee)]
  · intro c3 p3 u3 d3 df hp3
    have hpe : pyStrip p3 = emptyStr := pyStrip_all_ws p3 hp3
    constructor
    · simp only [save_application, if_pos (Or.inr hpe)]
    · simp only [save_application, if_pos (Or.inr hpe), if_pos (Or.inr hee)]
  · intro c2 p2 u2 d2 df hok
    by_cases h : pyStrip c2 = emptyStr ∨ pyStrip p2 = emptyStr
    · simp [save_application, if_pos h] at hok
    · refine ⟨?_, pyStrip_idem c2, pyStrip_idem p2, pyStrip_idem u2⟩
      simp only [save_application, if_neg h]
      rfl

/-- Witness for add_strips_whitespace: a whitespace-only company input is
rejected with the store unchanged, exactly as an empty company input. -/
theorem add_strips_whitespace_witness :
    save_application strWS strPM emptyStr strDate2 [rowA].enum =
      ([rowA].enum, some requiredFieldsMsg) ∧
    save_application strWS strPM emptyStr strDate2 [rowA].enum =
      save_application emptyStr strPM emptyStr strDate2 [rowA].enum ∧
    (∀ (c3 p3 u3 d3 : String) (df : Df), (∀ ch ∈ p3.data, pyWhitespace ch = true) →
      save_application c3 p3 u3 d3 df = (df, some requiredFieldsMsg) ∧
      save_application c3 p3 u3 d3 df = save_application c3 emptyStr u3 d3 df) ∧
    (∀ (c2 p2 u2 d2 : String) (df : Df), (save_application c2 p2 u2 d2 df).2 = none →
      (save_application c2 p2 u2 d2 df).1 =
        (df.map Prod.snd ++
          [mkRow (pyStrip c2) (pyStrip p2) (pyStrip u2) d2 statusSubmitted]).enum ∧
      pyStrip (pyStrip c2) = pyStrip c2 ∧ pyStrip (pyStrip p2) = pyStrip p2 ∧
      pyStrip (pyStrip u2) = pyStrip u2) :=
  add_strips_whitespace strWS strPM emptyStr strDate2 [rowA] (by decide)

/-- pandas df.drop of one integer label: every row with that label goes. -/
def dropLabel (df : Df) (lbl : Nat) : Df := df.filter (fun p => p.1 ≠ lbl)

/-- One iteration of the deletion loop: drop the label only when it is present
in the index, as guarded in delete_rows. -/
def drop_if_present (df : Df) (lbl : Nat) : Df :=
  if df.any (fun p => p.1 = lbl) then dropLabel df lbl else df

/-- Insertion step of sorting in descending order. -/
def insertDesc (x : Nat) : List Nat → List Nat
  | [] => [x]
  | y :: ys => if y ≤ x then x :: y :: ys else y :: insertDesc x ys

/-- sorted with reverse true, as used on the selected row ids. -/
def sortDesc : List Nat → List Nat
  | [] => []
  | x :: xs => insertDesc x (sortDesc xs)

/-- df.reset_index with drop true: keep the rows, relabel them 0, 1, 2, ... -/
def reset_index (df : Df) : Df := (df.map Prod.snd).enum

/-- delete_rows: nothing happens on an empty selection; otherwise the selected
labels are sorted descending, each present label is dropped, and the surviving
rows are relabelled contiguously. -/
def delete_rows (df : Df) (rowIds : List Nat) : Df :=
  if rowIds = [] then df
  else reset_index ((sortDesc rowIds).foldl drop_if_present df)

theorem drop_if_present_eq (df : Df) (lbl : Nat) :
    drop_if_present df lbl = dropLabel df lbl := by
  unfold drop_if_present
  by_cases h : df.any (fun p => p.1 = lbl) = true
  · rw [if_pos h]
  · rw [if_neg h]
    symm
    apply List.filter_eq_self.mpr
    intro a ha
    simp only [ne_eq, decide_eq_true_eq]
    intro heq
    exact h (List.any_eq_true.mpr ⟨a, ha, by simp [heq]⟩)

theorem foldl_drop :
    ∀ (S : List Nat) (df : Df),
      S.foldl drop_if_present df = df.filter (fun p => p.1 ∉ S) := by
  intro S
  induction S with
  | nil =>
      intro df
      exact (List.filter_eq_self.mpr (by intro a _; simp)).symm
  | cons x xs ih =>
      intro df
      show xs.foldl drop_if_present (drop_if_present df x) = _
      rw [ih, drop_if_present_eq]
      unfold dropLabel
      rw [List.filter_filter]
      apply List.filter_congr
      intro a _
      by_cases h1 : a.1 = x <;> by_cases h2 : a.1 ∈ xs <;> simp [h1, h2]

theorem mem_insertDesc (x a : Nat) :
    ∀ l : List Nat, a ∈ insertDesc x l ↔ a = x ∨ a ∈ l := by
  intro l
  induction l with
  | nil => simp [insertDesc]
  | cons y ys ih =>
      by_cases h : y ≤ x
      · simp [insertDesc, h]
      · simp [insertDesc, h, ih]
        tauto

theorem mem_sortDesc (a : Nat) : ∀ l : List Nat, a ∈ sortDesc l ↔ a ∈ l := by
  intro l
  induction l with
  | nil => simp [sortDesc]
  | cons x xs ih => simp [sortDesc, mem_insertDesc, ih]

theorem length_filter_split (p : Nat × Row → Bool) :
    ∀ l : Df, (l.filter p).length + (l.filter (fun a => ! p a)).length = l.length := by
  intro l
  induction l with
  | nil => rfl
  | cons a l ih =>
      by_cases h : p a = true <;> simp [List.filter_cons, h] <;> omega

theorem length_filter_enum_mem (recs : List Row) (S : List Nat)
    (hnd : S.Nodup) (hsub : ∀ i ∈ S, i < recs.length) :
    (recs.enum.filter (fun p => p.1 ∈ S)).length = S.length := by
  have h1 : (recs.enum.map Prod.fst).filter (fun i => i ∈ S)
      = (recs.enum.filter (fun p => p.1 ∈ S)).map Prod.fst :=
    List.filter_map Prod.fst recs.enum
  have h2 : ((List.range recs.length).filter (fun i => i ∈ S)).length = S.length := by
    have hperm : List.Perm ((List.range recs.length).filter (fun i => i ∈ S)) S := by
      refine (List.perm_ext_iff_of_nodup ((List.nodup_range _).filter _) hnd).mpr ?_
      intro a
      simp only [List.mem_filter, List.mem_range, decide_eq_true_eq]
      exact ⟨fun h => h.2, fun h => ⟨hsub a h, h⟩⟩
    exact hperm.length_eq
  calc (recs.enum.filter (fun p => p.1 ∈ S)).length
      = ((recs.enum.filter (fun p => p.1 ∈ S)).map Prod.fst).length :=
        (List.length_map _ _).symm
    _ = ((recs.enum.map Prod.fst).filter (fun i => i ∈ S)).length := by rw [h1]
    _ = ((List.range recs.length).filter (fun i => i ∈ S)).length := by
        rw [List.enum_map_fst]
    _ = S.length := h2

theorem length_filter_enum_not_mem (recs : List Row) (S : List Nat)
    (hnd : S.Nodup) (hsub : ∀ i ∈ S, i < recs.length) :
    (recs.enum.filter (fun p => p.1 ∉ S)).length = recs.length - S.length := by
  have hsplit := length_filter_split (fun p => decide (p.1 ∈ S)) recs.enum
  have hnn : recs.enum.filter (fun a => ! decide (a.1 ∈ S))
      = recs.enum.filter (fun p => p.1 ∉ S) :=
    List.filter_congr (by intro a _; simp)
  rw [hnn, List.enum_length, length_filter_enum_mem recs S hnd hsub] at hsplit
  omega

/-- Claim C2: deleting a duplicate-free selection of valid ids removes exactly
the rows whose id is selected, and the survivors keep their relative order and
are relabelled contiguously 0, 1, ..., with final size the old size minus the
number of deleted ids. -/
theorem delete_renumbers (recs : List Row) (S : List Nat)
    (hnd : S.Nodup) (hsub : ∀ i ∈ S, i < recs.length) :
    delete_rows recs.enum S =
      ((recs.enum.filter (fun p => p.1 ∉ S)).map Prod.snd).enum ∧
    (delete_rows recs.enum S).length = recs.length - S.length ∧
    (delete_rows recs.enum S).map Prod.fst = List.range (recs.length - S.length) := by
  have hmain : delete_rows recs.enum S =
      ((recs.enum.filter (fun p => p.1 ∉ S)).map Prod.snd).enum := by
    by_cases hS : S = []
    · subst hS
      unfold delete_rows
      rw [if_pos rfl]
      have hid : recs.enum.filter (fun p => p.1 ∉ ([] : List Nat)) = recs.enum :=
        List.filter_eq_self.mpr (by intro a _; simp)
      rw [hid, List.enum_map_snd]
    · unfold delete_rows
      rw [if_neg hS]
      unfold reset_index
      rw [foldl_drop]
      have hs : recs.enum.filter (fun p => p.1 ∉ sortDesc S)
          = recs.enum.filter (fun p => p.1 ∉ S) :=
        List.filter_congr (by intro a _; simp [mem_sortDesc])
      rw [hs]
  have hlen : ((recs.enum.filter (fun p => p.1 ∉ S)).map Prod.snd).length
      = recs.length - S.length := by
    rw [List.length_map]
    exact length_filter_enum_not_mem recs S hnd hsub
  refine ⟨hmain, ?_, ?_⟩
  · rw [hmain, List.enum_length, hlen]
  · rw [hmain, List.enum_map_fst, hlen]

/-- Two more sample records, giving the four-record store of the claim. -/
def rowC : Row := mkRow strGlobex strEngineer emptyStr strDate1 strInterview

/-- Fourth sample record. -/
def rowD : Row := mkRow strPM strAcme emptyStr strDate2 statusSubmitted

/-- Witness for delete_renumbers: deleting id 1 from the four-record store
A, B, C, D keeps A, C, D in order under the contiguous ids 0, 1, 2. -/
theorem delete_renumbers_witness :
    (delete_rows [rowA, rowB, rowC, rowD].enum [1] =
      (([rowA, rowB, rowC, rowD].enum.filter
        (fun p => p.1 ∉ ([1] : List Nat))).map Prod.snd).enum ∧
     (delete_rows [rowA, rowB, rowC, rowD].enum [1]).length =
       [rowA, rowB, rowC, rowD].length - [1].length ∧
     (delete_rows [rowA, rowB, rowC, rowD].enum [1]).map Prod.fst =
       List.range ([rowA, rowB, rowC, rowD].length - [1].length)) ∧
    delete_rows [rowA, rowB, rowC, rowD].enum [1] =
      [(0, rowA), (1, rowC), (2, rowD)] :=
  ⟨delete_renumbers [rowA, rowB, rowC, rowD] [1] (by decide) (by decide), by decide⟩

/-- The editable columns of the applications table, as addressed by the
column name taken from the treeview. -/
inductive Column where
  | company
  | position
  | portalURL
  | dateApplied
  | status
deriving DecidableEq, Repr

/-- Overwrite one cell of a row. -/
def set_cell (r : Row) (col : Column) (v : Cell) : Row :=
  match col with
  | .company => { r with company := v }
  | .position => { r with position := v }
  | .portalURL => { r with portalURL := v }
  | .dateApplied => { r with dateApplied := v }
  | .status => { r with status := v }

/-- A row all of whose cells are missing values. -/
def emptyRow : Row :=
  { company := none
    position := none
    portalURL := none
    dateApplied := none
    status := none }

/-- pandas setting df.at for an integer label: when the label is present the
named cell of that row is overwritten; when it is absent the frame is enlarged
by a new row under that label whose named cell holds the value and whose other
cells are missing values. -/
def at_set (df : Df) (label : Nat) (col : Column) (v : String) : Df :=
  if df.any (fun p => p.1 = label) then
    df.map (fun p => if p.1 = label then (p.1, set_cell p.2 col (some v)) else p)
  else
    df ++ [(label, set_cell emptyRow col (some v))]

/-- Error text of the treeview item lookup, which raises for an absent item
id before any write to the frame happens. -/
def itemNotFoundMsg : String := "Item not found"

/-- save_edit, restricted to its effect on applications_df: the treeview cell
lookup comes first and raises for an item id absent from the tree, whose item
ids are the labels of the displayed frame, leaving the frame untouched; for a
present item the edited value is then written through the df.at cell write.
The result pairs the new frame with the error raised, if any. -/
def save_edit (df : Df) (treeItems : List Nat) (item_id : Nat)
    (col : Column) (newValue : String) : Df × Option String :=
  if item_id ∈ treeItems then (at_set df item_id col newValue, none)
  else (df, some itemNotFoundMsg)

/-- Claim C7: an update addressed to an id outside the contiguous ids 0..n-1
of the displayed store fails synchronously with an item-not-found error,
raised by the treeview lookup before any write, and the store is unchanged:
no record is created or modified. -/
theorem update_out_of_range_rejected (recs : List Row) (i : Nat)
    (col : Column) (v : String) (h : ¬ i < recs.length) :
    save_edit recs.enum (recs.enum.map Prod.fst) i col v =
      (recs.enum, some itemNotFoundMsg) := by
  have hmem : i ∉ recs.enum.map Prod.fst := by
    rw [List.enum_map_fst]
    intro hmem
    exact h (List.mem_range.mp hmem)
  unfold save_edit
  rw [if_neg hmem]

/-- Witness for update_out_of_range_rejected: updating id 5 against a
one-record store is rejected and changes nothing. -/
theorem update_out_of_range_rejected_witness :
    save_edit [rowA].enum ([rowA].enum.map Prod.fst) 5 Column.status strInterview =
      ([rowA].enum, some itemNotFoundMsg) :=
  update_out_of_range_rejected [rowA] 5 Column.status strInterview (by decide)

end AppTrack
